import Mathlib

/-!
Verification development for the dog-breed-predictor service
(src/dog-breed-backend/main.py and src/create_model.py).

Modelling conventions:
  - numpy float arrays are modelled as lists of rationals;
  - a probability batch of shape (1, n) is a `List (List ℚ)` with one row;
  - PIL images are pixel grids `Nat → Nat → List Nat` of uint8 channel values;
  - filesystem, TensorFlow and PIL effects are oracles gathered in `Env`;
  - fallible Python code (exceptions) is modelled with `Option` / `Except`.
-/

/-- Maximum of a list of rationals (total on nonempty lists; 0 on []).
Models `np.max` on a 1-D array. -/
def listMax : List ℚ → ℚ
  | [] => 0
  | [v] => v
  | v :: w :: rs => max v (listMax (w :: rs))

/-- Index of the first occurrence of the maximum, as `np.argmax` computes it
on a 1-D array (scanning left to right, keeping the first maximal index). -/
def argmax : List ℚ → Nat
  | [] => 0
  | [_] => 0
  | v :: w :: rs => if listMax (w :: rs) ≤ v then 0 else argmax (w :: rs) + 1

/-- Comparison used to model `np.argsort` ascending with stable ties
(equal values ordered by index).  numpy uses insertion sort for the small
arrays appearing in every concrete instance considered here, which is
stable, so ties go to the smaller index. -/
def keyLe (row : List ℚ) (i j : Nat) : Prop :=
  row.getD i 0 < row.getD j 0 ∨ (row.getD i 0 = row.getD j 0 ∧ i ≤ j)

instance keyLe.decRel (row : List ℚ) : DecidableRel (keyLe row) := fun i j => by
  unfold keyLe; infer_instance

instance keyLe.total (row : List ℚ) : IsTotal Nat (keyLe row) := by
  constructor
  intro i j
  unfold keyLe
  rcases lt_trichotomy (row.getD i 0) (row.getD j 0) with h | h | h
  · exact Or.inl (Or.inl h)
  · rcases Nat.le_total i j with hij | hij
    · exact Or.inl (Or.inr ⟨h, hij⟩)
    · exact Or.inr (Or.inr ⟨h.symm, hij⟩)
  · exact Or.inr (Or.inl h)

instance keyLe.trans (row : List ℚ) : IsTrans Nat (keyLe row) := by
  constructor
  intro i j k hij hjk
  unfold keyLe at *
  rcases hij with h1 | ⟨h1, hi⟩ <;> rcases hjk with h2 | ⟨h2, hj⟩
  · exact Or.inl (h1.trans h2)
  · exact Or.inl (h2 ▸ h1)
  · exact Or.inl (h1 ▸ h2)
  · exact Or.inr ⟨h1.trans h2, hi.trans hj⟩

/-- Models `np.argsort(row)`: the indices `0..row.length-1` sorted by
ascending value (stable in the ties, see `keyLe`). -/
def argsortAsc (row : List ℚ) : List Nat :=
  List.insertionSort (keyLe row) (List.range row.length)

/-- Python slice `l[-k:]` for `k : Nat` (for `k = 0` the slice `l[-0:]`
is the whole list). -/
def lastK (k : Nat) (l : List α) : List α :=
  if k = 0 then l else l.drop (l.length - k)

/-- Models the single-character `str.replace("_", " ")` applied to breed
names in main.py. -/
def replaceUnderscores (s : String) : String :=
  String.mk (s.data.map fun c => if c = '_' then ' ' else c)

/-- One step of Python `str.title`: a letter starting a word (previous
character not a letter) is uppercased, a letter inside a word is
lowercased, other characters are kept. -/
def titleChars : List Char → Bool → List Char
  | [], _ => []
  | c :: rs, prevAlpha =>
    (if c.isAlpha then (if prevAlpha then c.toLower else c.toUpper) else c)
      :: titleChars rs c.isAlpha

/-- Models Python `str.title()` (words are maximal runs of letters). -/
def pyTitle (s : String) : String :=
  String.mk (titleChars s.data false)

/-- The formatting `breed.replace("_", " ").title()` applied throughout
main.py when breeds are shown to clients. -/
def formatBreed (s : String) : String :=
  pyTitle (replaceUnderscores s)

/-- main.py line 26. -/
def IMG_SIZE : Nat := 224

/-- get_pred_label of main.py (lines 88-90): `breeds[np.argmax(pp)]`.
`np.argmax` flattens the (1, n) batch, modelled by `List.join`; the
indexing is modelled with `getD` (in-range in every case proved below). -/
def get_pred_label (breeds : List String) (pp : List (List ℚ)) : String :=
  breeds.getD (argmax pp.flatten) ""

/-- get_top_predictions of main.py (lines 92-103):
`np.argsort(pp[0])[-top_k:][::-1]`, then for each index the formatted
breed and its probability.  `pp[0]` is modelled by `headD []` (the caller
always passes a nonempty batch). -/
def get_top_predictions (breeds : List String) (pp : List (List ℚ))
    (top_k : Nat) : List (String × ℚ) :=
  let row := pp.headD []
  let top_indices := (lastK top_k (argsortAsc row)).reverse
  top_indices.map fun idx => (formatBreed (breeds.getD idx ""), row.getD idx 0)

/-- A PIL image: mode string, size, optional format, and the pixel grid
giving each (y, x) position its list of uint8 channel values. -/
structure PILImage where
  mode : String
  width : Nat
  height : Nat
  format : Option String
  px : Nat → Nat → List Nat

/-- Well-formed image: every channel value is a uint8, and an RGB-mode
image has exactly 3 channels per pixel. -/
def WFImage (img : PILImage) : Prop :=
  (∀ y x, ∀ v ∈ img.px y x, v < 256) ∧
  (img.mode = "RGB" → ∀ y x, (img.px y x).length = 3)

/-- Per-pixel effect of PIL `convert("RGB")`: keep the first three
channels when there are at least three (RGBA drops alpha), otherwise
replicate the single luminance channel (L / LA modes). -/
def toRGBpixel (c : List Nat) : List Nat :=
  if 3 ≤ c.length then c.take 3 else List.replicate 3 (c.headD 0)

/-- PIL `image.convert("RGB")`. -/
def convertRGB (img : PILImage) : PILImage :=
  { img with
    mode := "RGB"
    px := fun y x => toRGBpixel (img.px y x) }

/-- PIL `image.resize((n, n))`, modelled as index-remapping sampling of
the source grid; what matters for the spec is that the result is n by n
and every sampled value is a channel value of the source image. -/
def resizeImg (n : Nat) (img : PILImage) : PILImage :=
  { img with
    width := n
    height := n
    px := fun y x => img.px (y * img.height / n) (x * img.width / n) }

/-- The image after the mode conversion and resize of preprocess_image
(main.py lines 74-78). -/
def pipelineImage (img : PILImage) : PILImage :=
  resizeImg IMG_SIZE (if img.mode ≠ "RGB" then convertRGB img else img)

/-- preprocess_image of main.py (lines 72-86): convert to RGB when
needed, resize to IMG_SIZE x IMG_SIZE, divide by 255, and add a batch
dimension. -/
def preprocess_image (img : PILImage) : List (List (List (List ℚ))) :=
  [(List.range IMG_SIZE).map fun y =>
    (List.range IMG_SIZE).map fun x =>
      ((pipelineImage img).px y x).map fun v : Nat => (v : ℚ) / 255]

/-- Compiled Keras model architecture and compile settings, as assembled
by the two create_model functions. -/
structure ModelConfig where
  inputShape : List (Option Nat)
  featureVectorURL : String
  denseUnits : Nat
  denseActivation : String
  loss : String
  optimizer : String
  metrics : List String
deriving DecidableEq

/-- A built model together with the provenance of its parameters:
`weightsFrom = some p` when trained weights were restored from the
checkpoint file `p`, `none` for a freshly initialized model. -/
structure LoadedModel where
  config : ModelConfig
  weightsFrom : Option String
deriving DecidableEq

/-- main.py line 41. -/
def MODEL_URL : String :=
  "https://kaggle.com/models/google/mobilenet-v2/TensorFlow2/100-224-feature-vector/1"

/-- main.py line 39: `[None, IMG_SIZE, IMG_SIZE, 3]`. -/
def INPUT_SHAPE : List (Option Nat) :=
  [none, some IMG_SIZE, some IMG_SIZE, some 3]

/-- create_model of main.py (lines 37-58): input layer of shape
`INPUT_SHAPE[1:]`, the MobileNetV2 feature-vector hub layer, a dense
softmax head with one unit per breed; compiled with categorical
cross-entropy, Adam, and the accuracy metric.  The result carries no
trained parameters. -/
def create_model (breeds : List String) : LoadedModel :=
  { config := { inputShape := INPUT_SHAPE.drop 1
                featureVectorURL := MODEL_URL
                denseUnits := breeds.length
                denseActivation := "softmax"
                loss := "categorical_crossentropy"
                optimizer := "adam"
                metrics := ["accuracy"] }
    weightsFrom := none }

/-- create_model.py line 5. -/
def SCRIPT_IMG_SIZE : Nat := 224

/-- create_model.py line 6. -/
def SCRIPT_INPUT_SHAPE : List (Option Nat) :=
  [none, some SCRIPT_IMG_SIZE, some SCRIPT_IMG_SIZE, some 3]

/-- create_model.py line 7. -/
def SCRIPT_OUTPUT_SHAPE : Nat := 120

/-- create_model.py line 8. -/
def SCRIPT_MODEL_URL : String :=
  "https://kaggle.com/models/google/mobilenet-v2/TensorFlow2/100-224-feature-vector/1"

/-- create_model of src/create_model.py (lines 11-26); its defaults are
`SCRIPT_INPUT_SHAPE`, `SCRIPT_OUTPUT_SHAPE`, `SCRIPT_MODEL_URL`. -/
def create_model_script (input_shape : List (Option Nat)) (output_shape : Nat)
    (model_url : String) : LoadedModel :=
  { config := { inputShape := input_shape.drop 1
                featureVectorURL := model_url
                denseUnits := output_shape
                denseActivation := "softmax"
                loss := "categorical_crossentropy"
                optimizer := "adam"
                metrics := ["accuracy"] }
    weightsFrom := none }

/-- State of breeds.json on disk: absent, present but not valid JSON, or
parsing to the breed list `bs`. -/
inductive BreedsFile where
  | missing
  | invalid
  | valid (bs : List String)
deriving DecidableEq

/-- Oracles for the effects the service performs: the filesystem, weight
loading, PIL decoding, and TensorFlow inference (`none` models a raised
exception). -/
structure Env where
  breedsFile : BreedsFile
  fileExists : String → Bool
  loadFails : String → Bool
  decodeImage : List Nat → Option PILImage
  predictFn : LoadedModel → List (List (List (List ℚ))) → Option (List (List ℚ))
  countParams : LoadedModel → Nat
  gpuCount : Nat
  tfVersion : String

/-- The process-wide globals of main.py (lines 23-25) once startup has
run: the optional model singleton and the breeds list. -/
structure ServerState where
  model : Option LoadedModel
  breeds : List String
deriving DecidableEq

/-- load_breeds of main.py (lines 28-35): a missing file is caught and
the integer -1 is returned; a JSON parse error is not caught and
propagates (`Except.error`); otherwise the parsed list is returned.  The
Python value (int or list) is the sum type. -/
def load_breeds : BreedsFile → Except Unit (Sum Int (List String))
  | .missing => .ok (.inl (-1))
  | .invalid => .error ()
  | .valid bs => .ok (.inr bs)

/-- The breeds phase of startup_event (main.py lines 111-112): after
load_breeds, the startup message evaluates `len(breeds)`, which raises
TypeError when breeds is the integer -1, so startup fails unless a list
was loaded. -/
def startupBreeds (f : BreedsFile) : Except Unit (List String) :=
  match load_breeds f with
  | .error _ => .error ()
  | .ok (.inl _) => .error ()
  | .ok (.inr bs) => .ok bs

/-- load_trained_model of main.py (lines 60-70): build the architecture
and restore the checkpoint at weights_path; any exception raised while
building or loading is caught and None is returned.
`env.loadFails p` models whether the try block raises for path `p`. -/
def load_trained_model (env : Env) (breeds : List String)
    (weights_path : String) : Option LoadedModel :=
  if env.loadFails weights_path then none
  else some { config := (create_model breeds).config
              weightsFrom := some weights_path }

/-- main.py lines 115-117: the list of candidate checkpoint files. -/
def WEIGHTS_PATH : String :=
  "20250619-08341750322059-full-dataset-dog-mobilenetv2-cj.weights.h5"

/-- main.py lines 115-117. -/
def weights_paths : List String := [WEIGHTS_PATH]

/-- The model-selection loop of startup_event (main.py lines 119-137):
for each listed path that exists, try load_trained_model and stop at the
first success; when none succeeds, fall back to a freshly created
untrained model. -/
def selectModel (env : Env) (breeds : List String) : List String → LoadedModel
  | [] => create_model breeds
  | p :: rest =>
    if env.fileExists p then
      match load_trained_model env breeds p with
      | some m => m
      | none => selectModel env breeds rest
    else selectModel env breeds rest

/-- startup_event of main.py (lines 105-137): load the breeds (failing
when breeds.json is missing or unparseable), then select the model. -/
def startup_event (env : Env) : Except Unit ServerState :=
  match startupBreeds env.breedsFile with
  | .error _ => .error ()
  | .ok bs => .ok { model := some (selectModel env bs weights_paths), breeds := bs }

/-- Round-half-to-even on rationals, the tie rule of Python round(). -/
def roundHalfEven (q : ℚ) : Int :=
  let f := Int.floor q
  if q - f < 1 / 2 then f
  else if 1 / 2 < q - f then f + 1
  else if 2 ∣ f then f else f + 1

/-- Python round(q, ndigits) idealized over the rationals. -/
def pyRound (q : ℚ) (ndigits : Nat) : ℚ :=
  (roundHalfEven (q * (10 : ℚ) ^ ndigits) : ℚ) / (10 : ℚ) ^ ndigits

/-- An upload as received by the /predict handler. -/
structure PredictReq where
  filename : String
  contentType : String
  body : List Nat
deriving DecidableEq

/-- The image_info block of the /predict response (main.py lines 220-225). -/
structure ImageInfo where
  width : Nat
  height : Nat
  format : Option String
  size_kb : ℚ
deriving DecidableEq

/-- The prediction block of the /predict response (main.py lines 226-230). -/
structure PredictionInfo where
  breed : String
  confidence : ℚ
  confidence_percentage : ℚ
deriving DecidableEq

/-- The model_info block of the /predict response (main.py lines 232-237). -/
structure PredictModelInfo where
  model_type : String
  total_breeds : Nat
  image_size_used : Nat
  model_trained : Bool
deriving DecidableEq

/-- The 200 payload of /predict (main.py lines 217-238). -/
structure PredictPayload where
  success : Bool
  filename : String
  image_info : ImageInfo
  prediction : PredictionInfo
  top_3_predictions : List (String × ℚ)
  model_info : PredictModelInfo
deriving DecidableEq

/-- The payload of GET / (main.py lines 139-147). -/
structure RootPayload where
  message : String
  status : String
  model_loaded : Bool
  total_breeds : Nat
  version : String
deriving DecidableEq

/-- The payload of GET /health (main.py lines 149-157). -/
structure HealthPayload where
  status : String
  service : String
  model_status : String
  gpu_available : Bool
  tensorflow_version : String
deriving DecidableEq

/-- The payload of GET /model/info (main.py lines 159-176). -/
structure ModelInfoPayload where
  model_loaded : Bool
  input_shape : List (Option Nat)
  output_shape : List (Option Nat)
  total_parameters : Nat
  total_breeds : Nat
  image_size : Nat
  sample_breeds : List String
deriving DecidableEq

/-- The payload of GET /breeds (main.py lines 178-184). -/
structure BreedsPayload where
  total_breeds : Nat
  breeds : List String
deriving DecidableEq

/-- An HTTP response of the service: an HTTPException with status code
and detail, or a 200 payload of one of the endpoints. -/
inductive Response where
  | error (status : Nat) (detail : String)
  | rootOk (p : RootPayload)
  | healthOk (p : HealthPayload)
  | modelInfoOk (p : ModelInfoPayload)
  | breedsOk (p : BreedsPayload)
  | predictOk (p : PredictPayload)
deriving DecidableEq

/-- read_root of main.py (lines 139-147).  `len(breeds) if breeds else 0`
is the length for a truthy (nonempty) list and 0 otherwise. -/
def read_root (st : ServerState) : ServerState × Response :=
  (st, .rootOk { message := "Dog Breed Predictor API with Real ML Model!"
                 status := "healthy"
                 model_loaded := st.model.isSome
                 total_breeds := if st.breeds.isEmpty then 0 else st.breeds.length
                 version := "2.0.0" })

/-- health_check of main.py (lines 149-157). -/
def health_check (env : Env) (st : ServerState) : ServerState × Response :=
  (st, .healthOk { status := "healthy"
                   service := "dog-breed-predictor"
                   model_status := if st.model.isSome then "loaded" else "not_loaded"
                   gpu_available := 0 < env.gpuCount
                   tensorflow_version := env.tfVersion })

/-- model_info of main.py (lines 159-176).  The Keras shape tuples
(None, 224, 224, 3) and (None, units) are kept structured rather than
stringified. -/
def model_info (env : Env) (st : ServerState) : ServerState × Response :=
  match st.model with
  | none => (st, .error 503 "Model not loaded")
  | some m =>
    (st, .modelInfoOk { model_loaded := true
                        input_shape := none :: m.config.inputShape
                        output_shape := [none, some m.config.denseUnits]
                        total_parameters := env.countParams m
                        total_breeds := st.breeds.length
                        image_size := IMG_SIZE
                        sample_breeds := (st.breeds.take 10).map formatBreed })

/-- get_breeds of main.py (lines 178-184). -/
def get_breeds (st : ServerState) : ServerState × Response :=
  (st, .breedsOk { total_breeds := st.breeds.length
                   breeds := st.breeds.map formatBreed })

/-- The try block of predict_breed (main.py lines 197-238): decode the
upload, preprocess, run inference, and build the 200 payload.  `none`
models any raised exception: a failed decode, a failed predict call, or
an out-of-range list index while decoding labels. -/
def tryPredict (env : Env) (m : LoadedModel) (breeds : List String)
    (req : PredictReq) : Option PredictPayload :=
  match env.decodeImage req.body with
  | none => none
  | some image =>
    let processed := preprocess_image image
    match env.predictFn m processed with
    | none => none
    | some predictions =>
      match predictions with
      | [] => none
      | row :: rest =>
        if argmax (List.flatten (row :: rest)) < breeds.length ∧ row ≠ [] ∧
            ∀ i ∈ (lastK 3 (argsortAsc row)).reverse, i < breeds.length then
          some { success := true
                 filename := req.filename
                 image_info := { width := image.width
                                 height := image.height
                                 format := image.format
                                 size_kb := pyRound ((req.body.length : ℚ) / 1024) 2 }
                 prediction := { breed := formatBreed (get_pred_label breeds (row :: rest))
                                 confidence := listMax row
                                 confidence_percentage := pyRound (listMax row * 100) 1 }
                 top_3_predictions := get_top_predictions breeds (row :: rest) 3
                 model_info := { model_type := "MobileNetV2 + Custom Dense Layer"
                                 total_breeds := breeds.length
                                 image_size_used := IMG_SIZE
                                 model_trained := decide ((1 : ℚ) / 10 < listMax row) } }
        else none

/-- predict_breed of main.py (lines 186-245): 503 when the model is not
loaded, else 400 when the content type does not start with image/, else
the try block with a 500 on any exception. -/
def predict_breed (env : Env) (st : ServerState) (req : PredictReq) :
    ServerState × Response :=
  match st.model with
  | none => (st, .error 503 "Model not loaded")
  | some m =>
    if req.contentType.startsWith "image/" = false then
      (st, .error 400 "File must be an image (jpg, png, etc.)")
    else
      match tryPredict env m st.breeds req with
      | none => (st, .error 500 "Error processing image")
      | some payload => (st, .predictOk payload)

/-- A request to one of the five endpoints of the service. -/
inductive Request where
  | root
  | health
  | modelInfo
  | breedsList
  | predict (r : PredictReq)
deriving DecidableEq

/-- Dispatch of a request to its handler. -/
def handle (env : Env) (st : ServerState) : Request → ServerState × Response
  | .root => read_root st
  | .health => health_check env st
  | .modelInfo => model_info env st
  | .breedsList => get_breeds st
  | .predict r => predict_breed env st r

/-- A whole session: handle a list of requests in order, threading the
global state through. -/
def runRequests (env : Env) : ServerState → List Request → ServerState × List Response
  | st, [] => (st, [])
  | st, r :: rs =>
    let p := handle env st r
    let q := runRequests env p.1 rs
    (q.1, p.2 :: q.2)

/-- A concrete oracle environment used by witnesses. -/
def env0 : Env :=
  { breedsFile := .valid ["golden_retriever", "border_collie", "pug"]
    fileExists := fun _ => false
    loadFails := fun _ => false
    decodeImage := fun _ => none
    predictFn := fun _ _ => none
    countParams := fun _ => 0
    gpuCount := 0
    tfVersion := "2.16.1" }

/-- A concrete server state (no model loaded) used by witnesses. -/
def st0 : ServerState :=
  { model := none, breeds := ["golden_retriever", "border_collie", "pug"] }

/-- A concrete upload used by witnesses. -/
def req0 : PredictReq :=
  { filename := "luna.jpeg", contentType := "image/jpeg", body := [1, 2, 3] }

/-- A concrete image used by witnesses. -/
def img0 : PILImage :=
  { mode := "RGB", width := 5, height := 5, format := some "JPEG"
    px := fun _ _ => [10, 20, 30] }

/-- The rational 1/2 given in normal form, so that concrete instances
involving it can be settled by kernel evaluation. -/
def half : ℚ := Rat.mk' 1 2 (by norm_num) (by norm_num)

theorem le_listMax (l : List ℚ) : ∀ x ∈ l, x ≤ listMax l := by
  induction l with
  | nil => intro x hx; cases hx
  | cons v rest ih =>
    intro x hx
    cases rest with
    | nil =>
      rcases List.mem_cons.mp hx with h | h
      · subst h; simp [listMax]
      · cases h
    | cons w rs =>
      rcases List.mem_cons.mp hx with h | h
      · subst h; exact le_max_left _ _
      · exact (ih x h).trans (le_max_right _ _)

theorem listMax_mem (l : List ℚ) (h : l ≠ []) : listMax l ∈ l := by
  induction l with
  | nil => exact absurd rfl h
  | cons v rest ih =>
    cases rest with
    | nil => simp [listMax]
    | cons w rs =>
      rcases max_choice v (listMax (w :: rs)) with hm | hm
      · rw [listMax, hm]; exact List.mem_cons_self _ _
      · rw [listMax, hm]
        exact List.mem_cons_of_mem _ (ih (by simp))

theorem argmax_lt_length (l : List ℚ) (h : l ≠ []) : argmax l < l.length := by
  induction l with
  | nil => exact absurd rfl h
  | cons v rest ih =>
    cases rest with
    | nil => simp [argmax]
    | cons w rs =>
      rw [argmax]
      split
      · simp
      · have := ih (by simp)
        simpa [Nat.succ_lt_succ_iff] using this

theorem getD_argmax (l : List ℚ) (h : l ≠ []) :
    l.getD (argmax l) 0 = listMax l := by
  induction l with
  | nil => exact absurd rfl h
  | cons v rest ih =>
    cases rest with
    | nil => simp [argmax, listMax]
    | cons w rs =>
      rw [argmax]
      split
      · rename_i hle
        simp [listMax, max_eq_left hle]
      · rename_i hle
        have hv : v ≤ listMax (w :: rs) := le_of_lt (lt_of_not_le hle)
        rw [listMax, max_eq_right hv]
        simpa using ih (by simp)

theorem getD_lt_listMax_of_lt_argmax (l : List ℚ) :
    ∀ j < argmax l, l.getD j 0 < listMax l := by
  induction l with
  | nil => intro j hj; simp [argmax] at hj
  | cons v rest ih =>
    cases rest with
    | nil => intro j hj; simp [argmax] at hj
    | cons w rs =>
      intro j hj
      rw [argmax] at hj
      split at hj
      · omega
      · rename_i hle
        have hv : v < listMax (w :: rs) := lt_of_not_le hle
        rw [listMax, max_eq_right (le_of_lt hv)]
        cases j with
        | zero => simpa using hv
        | succ k =>
          have hk : k < argmax (w :: rs) := by omega
          simpa using ih k hk

/-- C1: get_pred_label decodes the label at exactly the argmax position
of the model output: for a batch [row] aligned with the breeds list, the
returned string is the breeds entry at index argmax row, that index is in
range, the probability there is the maximum of the row, every other unit
has a value not larger, and every earlier unit is strictly smaller (the
first maximal position is used). -/
theorem get_pred_label_at_argmax (breeds : List String) (row : List ℚ)
    (hne : row ≠ []) (hlen : row.length = breeds.length) :
    get_pred_label breeds [row] = breeds.getD (argmax row) "" ∧
    argmax row < breeds.length ∧
    row.getD (argmax row) 0 = listMax row ∧
    (∀ j < row.length, row.getD j 0 ≤ listMax row) ∧
    (∀ j < argmax row, row.getD j 0 < listMax row) := by
  refine ⟨?_, ?_, getD_argmax row hne, ?_, getD_lt_listMax_of_lt_argmax row⟩
  · simp [get_pred_label]
  · rw [← hlen]; exact argmax_lt_length row hne
  · intro j hj
    rw [List.getD_eq_getElem row 0 hj]
    exact le_listMax row _ (List.getElem_mem hj)

theorem get_pred_label_at_argmax_witness :
    get_pred_label ["golden_retriever", "border_collie"] [[(1 : ℚ)/3, (2 : ℚ)/3]]
      = ["golden_retriever", "border_collie"].getD (argmax [(1 : ℚ)/3, (2 : ℚ)/3]) "" :=
  (get_pred_label_at_argmax ["golden_retriever", "border_collie"]
    [(1 : ℚ)/3, (2 : ℚ)/3] (by simp) (by simp)).1

/-- C7: the /breeds endpoint reports total_breeds equal to the length of
the breeds list and returns the elementwise formatted image of the
breeds list in the same order, so position i of the response corresponds
to model output unit i. -/
theorem get_breeds_spec (st : ServerState) :
    (get_breeds st).1 = st ∧
    (get_breeds st).2 = .breedsOk { total_breeds := st.breeds.length
                                    breeds := st.breeds.map formatBreed } ∧
    (st.breeds.map formatBreed).length = st.breeds.length ∧
    ∀ i < st.breeds.length,
      (st.breeds.map formatBreed).getD i "" = formatBreed (st.breeds.getD i "") := by
  refine ⟨rfl, rfl, by simp, ?_⟩
  intro i hi
  rw [List.getD_eq_getElem _ _ (by simpa using hi), List.getD_eq_getElem _ _ hi]
  simp

theorem get_breeds_spec_witness :
    (st0.breeds.map formatBreed).getD 0 "" = formatBreed (st0.breeds.getD 0 "") :=
  (get_breeds_spec st0).2.2.2 0 (by simp [st0])

/-- C8: with 120 breeds, create_model of main.py and create_model of
src/create_model.py at its default arguments build the same architecture
(input 224x224x3, same MobileNetV2 feature-vector URL, dense softmax
head of 120 units) with the same compile settings. -/
theorem create_model_equiv (breeds : List String) (h : breeds.length = 120) :
    create_model breeds
      = create_model_script SCRIPT_INPUT_SHAPE SCRIPT_OUTPUT_SHAPE SCRIPT_MODEL_URL := by
  simp [create_model, create_model_script, h, INPUT_SHAPE, SCRIPT_INPUT_SHAPE,
    MODEL_URL, SCRIPT_MODEL_URL, SCRIPT_OUTPUT_SHAPE, IMG_SIZE, SCRIPT_IMG_SIZE]

theorem create_model_equiv_witness :
    create_model (List.replicate 120 "breed")
      = create_model_script SCRIPT_INPUT_SHAPE SCRIPT_OUTPUT_SHAPE SCRIPT_MODEL_URL :=
  create_model_equiv (List.replicate 120 "breed") (by simp)

theorem handle_fst (env : Env) (st : ServerState) (r : Request) :
    (handle env st r).1 = st := by
  cases r with
  | root => rfl
  | health => rfl
  | modelInfo =>
    rw [handle, model_info]
    cases st.model <;> rfl
  | breedsList => rfl
  | predict req =>
    rw [handle, predict_breed]
    cases st.model with
    | none => rfl
    | some m =>
      dsimp only
      split
      · rfl
      · cases tryPredict env m st.breeds req <;> rfl

/-- C3: no request handler modifies the global model or the global
breeds list: for every request to any of the five endpoints, the state
after the request has the same model and the same breeds list as before
it (the handlers are read-only on the globals). -/
theorem handlers_preserve_globals (env : Env) (st : ServerState) (r : Request) :
    (handle env st r).1.model = st.model ∧ (handle env st r).1.breeds = st.breeds := by
  rw [handle_fst]; exact ⟨rfl, rfl⟩

/-- C9: a missing breeds.json makes load_breeds return the integer -1
(not a breed list), startup then fails at `len(breeds)`, and the startup
path ends with a breeds list exactly when breeds.json parsed to one. -/
theorem load_breeds_missing_spec (f : BreedsFile) :
    load_breeds .missing = .ok (.inl (-1)) ∧
    startupBreeds .missing = .error () ∧
    (∀ e, startup_event { env0 with breedsFile := .missing } ≠ .ok e) ∧
    (∀ bs, startupBreeds f = .ok bs ↔ f = .valid bs) := by
  refine ⟨rfl, rfl, ?_, ?_⟩
  · intro e h
    simp [startup_event, startupBreeds, load_breeds] at h
  · intro bs
    constructor
    · intro h
      cases f with
      | missing => simp [startupBreeds, load_breeds] at h
      | invalid => simp [startupBreeds, load_breeds] at h
      | valid l =>
        simp [startupBreeds, load_breeds] at h
        rw [h]
    · intro h
      subst h
      rfl

theorem load_breeds_missing_spec_witness :
    startupBreeds (BreedsFile.valid ["pug"]) = .ok ["pug"] :=
  ((load_breeds_missing_spec (BreedsFile.valid ["pug"])).2.2.2 ["pug"]).mpr rfl

/-- C6: load_trained_model returns a model whose parameters were
restored from the given checkpoint path into the freshly built
architecture when no error occurs, and None when building or loading
raises; and the startup loop falls back to a freshly created model with
no trained parameters when the listed checkpoint does not exist or
loading returned None. -/
theorem load_trained_model_spec (env : Env) (breeds : List String) (wp : String) :
    (env.loadFails wp = false →
      load_trained_model env breeds wp
        = some { config := (create_model breeds).config, weightsFrom := some wp }) ∧
    (env.loadFails wp = true → load_trained_model env breeds wp = none) ∧
    ((env.fileExists WEIGHTS_PATH = false ∨
        load_trained_model env breeds WEIGHTS_PATH = none) →
      selectModel env breeds weights_paths = create_model breeds ∧
      (create_model breeds).weightsFrom = none) := by
  refine ⟨?_, ?_, ?_⟩
  · intro h; simp [load_trained_model, h]
  · intro h; simp [load_trained_model, h]
  · intro h
    refine ⟨?_, rfl⟩
    rw [weights_paths, selectModel]
    rcases h with h | h
    · rw [h]; simp [selectModel]
    · rw [h]
      split
      · simp [selectModel]
      · rfl

theorem load_trained_model_spec_witness :
    selectModel env0 ["pug"] weights_paths = create_model ["pug"] ∧
    (create_model ["pug"]).weightsFrom = none :=
  (load_trained_model_spec env0 ["pug"] WEIGHTS_PATH).2.2 (Or.inl rfl)

theorem toRGBpixel_length (c : List Nat) : (toRGBpixel c).length = 3 := by
  rw [toRGBpixel]
  split
  · rename_i h
    rw [List.length_take]
    omega
  · simp

theorem toRGBpixel_lt (c : List Nat) (hc : ∀ u ∈ c, u < 256) :
    ∀ v ∈ toRGBpixel c, v < 256 := by
  intro v hv
  rw [toRGBpixel] at hv
  split at hv
  · exact hc v (List.take_subset 3 c hv)
  · have hv' := List.eq_of_mem_replicate hv
    subst hv'
    cases c with
    | nil => simp
    | cons a rest => exact hc _ (by simp [List.headD])

theorem pipelineImage_px_length (img : PILImage) (h : WFImage img) (y x : Nat) :
    ((pipelineImage img).px y x).length = 3 := by
  rw [pipelineImage, resizeImg]
  dsimp only
  split
  · exact toRGBpixel_length _
  · rename_i hmode
    exact h.2 (by simpa using hmode) _ _

theorem pipelineImage_px_lt (img : PILImage) (h : WFImage img) (y x : Nat) :
    ∀ v ∈ (pipelineImage img).px y x, v < 256 := by
  rw [pipelineImage, resizeImg]
  dsimp only
  split
  · exact toRGBpixel_lt _ (h.1 _ _)
  · exact h.1 _ _

/-- C2: for every well-formed input image, preprocess_image returns a
tensor of shape (1, 224, 224, 3) each of whose components is a uint8
channel value divided by 255, hence lies in [0, 1]. -/
theorem preprocess_image_spec (img : PILImage) (h : WFImage img) :
    (preprocess_image img).length = 1 ∧
    ∀ plane ∈ preprocess_image img,
      plane.length = 224 ∧
      ∀ row ∈ plane,
        row.length = 224 ∧
        ∀ pix ∈ row,
          pix.length = 3 ∧
          ∀ q ∈ pix, 0 ≤ q ∧ q ≤ 1 ∧ ∃ v : Nat, v < 256 ∧ q = (v : ℚ) / 255 := by
  refine ⟨rfl, ?_⟩
  intro plane hplane
  rw [preprocess_image, List.mem_singleton] at hplane
  subst hplane
  refine ⟨by simp [IMG_SIZE], ?_⟩
  intro row hrow
  rw [List.mem_map] at hrow
  obtain ⟨y, _, rfl⟩ := hrow
  refine ⟨by simp [IMG_SIZE], ?_⟩
  intro pix hpix
  rw [List.mem_map] at hpix
  obtain ⟨x, _, rfl⟩ := hpix
  refine ⟨by rw [List.length_map]; exact pipelineImage_px_length img h y x, ?_⟩
  intro q hq
  rw [List.mem_map] at hq
  obtain ⟨v, hv, rfl⟩ := hq
  have hv256 := pipelineImage_px_lt img h y x v hv
  refine ⟨by positivity, ?_, v, hv256, rfl⟩
  rw [div_le_one (by norm_num)]
  exact_mod_cast Nat.le_of_lt_succ hv256

theorem preprocess_image_spec_witness : (preprocess_image img0).length = 1 :=
  (preprocess_image_spec img0
    ⟨by intro y x v hv
        simp [img0] at hv
        rcases hv with rfl | rfl | rfl <;> norm_num,
     by intro _ y x; rfl⟩).1

theorem runRequests_getD (env : Env) :
    ∀ (reqs : List Request) (st : ServerState) (k : Nat), k < reqs.length →
      (runRequests env st reqs).2.getD k (.error 0 "")
        = (handle env st (reqs.getD k .root)).2 := by
  intro reqs
  induction reqs with
  | nil => intro st k hk; simp at hk
  | cons r rs ih =>
    intro st k hk
    cases k with
    | zero => rfl
    | succ k' =>
      have hst := handle_fst env st r
      calc (runRequests env st (r :: rs)).2.getD (k' + 1) (.error 0 "")
          = (runRequests env (handle env st r).1 rs).2.getD k' (.error 0 "") := rfl
        _ = (handle env (handle env st r).1 ((rs).getD k' .root)).2 :=
            ih (handle env st r).1 k' (by simpa using hk)
        _ = (handle env st ((r :: rs).getD (k' + 1) .root)).2 := by rw [hst]; rfl

/-- C4: the /predict pipeline (and every other endpoint) is stateless
and deterministic: in any session the k-th response is a function of the
startup state and the k-th request alone, so two byte-for-byte identical
requests anywhere in the session receive identical responses and no
request influences the response of another. -/
theorem session_deterministic (env : Env) (st : ServerState) (reqs : List Request)
    (i j : Nat) (hi : i < reqs.length) (hj : j < reqs.length)
    (hsame : reqs.getD i .root = reqs.getD j .root) :
    (runRequests env st reqs).2.getD i (.error 0 "")
      = (runRequests env st reqs).2.getD j (.error 0 "") ∧
    (runRequests env st reqs).2.getD i (.error 0 "")
      = (handle env st (reqs.getD i .root)).2 := by
  have h1 := runRequests_getD env reqs st i hi
  have h2 := runRequests_getD env reqs st j hj
  refine ⟨?_, h1⟩
  rw [h1, h2, hsame]

theorem session_deterministic_witness :
    (runRequests env0 st0 [.predict req0, .health, .predict req0]).2.getD 0 (.error 0 "")
      = (runRequests env0 st0 [.predict req0, .health, .predict req0]).2.getD 2
          (.error 0 "") :=
  (session_deterministic env0 st0 [.predict req0, .health, .predict req0] 0 2
    (by simp) (by simp) rfl).1

/-- C10: predict_breed gates its errors in a fixed order: it leaves the
state unchanged; it answers 503 whenever the model is not loaded and 400
whenever (with a model) the content type does not start with image/, in
both cases independently of the request body; with a model and an image
content type it answers 500 exactly when the processing pipeline raises,
and 200 exactly when none of these hold. -/
theorem predict_breed_gating (env : Env) (st : ServerState) (req : PredictReq) :
    (predict_breed env st req).1 = st ∧
    (st.model = none →
      (predict_breed env st req).2 = .error 503 "Model not loaded" ∧
      ∀ body, (predict_breed env st { req with body := body }).2
        = .error 503 "Model not loaded") ∧
    (∀ m, st.model = some m → req.contentType.startsWith "image/" = false →
      (predict_breed env st req).2 = .error 400 "File must be an image (jpg, png, etc.)" ∧
      ∀ body, (predict_breed env st { req with body := body }).2
        = .error 400 "File must be an image (jpg, png, etc.)") ∧
    (∀ m, st.model = some m → req.contentType.startsWith "image/" = true →
      ((predict_breed env st req).2 = .error 500 "Error processing image" ↔
        tryPredict env m st.breeds req = none)) ∧
    ((∃ payload, (predict_breed env st req).2 = .predictOk payload) ↔
      ∃ m, st.model = some m ∧ req.contentType.startsWith "image/" = true ∧
        (tryPredict env m st.breeds req).isSome) := by
  refine ⟨handle_fst env st (.predict req), ?_, ?_, ?_, ?_⟩
  · intro hm
    rw [predict_breed, hm]
    exact ⟨rfl, fun _ => by rw [predict_breed, hm]⟩
  · intro m hm hct
    rw [predict_breed, hm]
    dsimp only
    rw [hct]
    exact ⟨rfl, fun _ => by rw [predict_breed, hm]; dsimp only; rw [hct]; rfl⟩
  · intro m hm hct
    rw [predict_breed, hm]
    dsimp only
    rw [hct]
    simp only [Bool.true_eq_false, if_false]
    cases htp : tryPredict env m st.breeds req <;> simp
  · constructor
    · rintro ⟨payload, hp⟩
      rw [predict_breed] at hp
      cases hm : st.model with
      | none => rw [hm] at hp; cases hp
      | some m =>
        rw [hm] at hp
        dsimp only at hp
        refine ⟨m, rfl, ?_⟩
        by_cases hct : req.contentType.startsWith "image/" = false
        · rw [if_pos hct] at hp; cases hp
        · rw [if_neg hct] at hp
          refine ⟨by revert hct; cases req.contentType.startsWith "image/" <;> simp, ?_⟩
          cases htp : tryPredict env m st.breeds req with
          | none => rw [htp] at hp; cases hp
          | some p => simp [htp]
    · rintro ⟨m, hm, hct, htp⟩
      rw [Option.isSome_iff_exists] at htp
      obtain ⟨p, hp⟩ := htp
      refine ⟨p, ?_⟩
      rw [predict_breed, hm]
      dsimp only
      rw [hct]
      simp only [Bool.true_eq_false, if_false]
      rw [hp]

theorem predict_breed_gating_witness :
    (predict_breed env0 st0 req0).2 = .error 503 "Model not loaded" :=
  ((predict_breed_gating env0 st0 req0).2.1 rfl).1

theorem argsortAsc_perm (row : List ℚ) : (argsortAsc row).Perm (List.range row.length) :=
  List.perm_insertionSort _ _

theorem argsortAsc_sorted (row : List ℚ) : List.Sorted (keyLe row) (argsortAsc row) :=
  List.sorted_insertionSort _ _

theorem mem_argsortAsc (row : List ℚ) (i : Nat) : i ∈ argsortAsc row ↔ i < row.length := by
  rw [(argsortAsc_perm row).mem_iff, List.mem_range]

theorem argsortAsc_length (row : List ℚ) : (argsortAsc row).length = row.length := by
  rw [(argsortAsc_perm row).length_eq, List.length_range]

theorem keyLe_refl (row : List ℚ) (i : Nat) : keyLe row i i := Or.inr ⟨rfl, le_refl i⟩

theorem keyLe_le (row : List ℚ) {i j : Nat} (h : keyLe row i j) :
    row.getD i 0 ≤ row.getD j 0 := by
  rcases h with h | ⟨h, _⟩
  · exact le_of_lt h
  · exact le_of_eq h

theorem lastK_reverse (l : List Nat) (k : Nat) (hk : k ≠ 0) :
    (lastK k l).reverse = l.reverse.take k := by
  rw [lastK, if_neg hk,
    show l.drop (l.length - k) = l.rtake k from rfl,
    List.rtake_eq_reverse_take_reverse, List.reverse_reverse]

theorem argsortAsc_reverse_pairwise (row : List ℚ) :
    List.Pairwise (fun a b => keyLe row b a) (argsortAsc row).reverse :=
  (List.pairwise_reverse).mpr (argsortAsc_sorted row)

theorem reverse_head_greatest (row : List ℚ) (h : Nat) (rest : List Nat)
    (ht : (argsortAsc row).reverse = h :: rest) :
    ∀ j ∈ argsortAsc row, keyLe row j h := by
  intro j hj
  rw [← List.mem_reverse, ht] at hj
  rcases List.mem_cons.mp hj with rfl | hj
  · exact keyLe_refl row j
  · have hp := argsortAsc_reverse_pairwise row
    rw [ht] at hp
    exact List.rel_of_pairwise_cons hp hj

/-- C5 amended: when the probability row has one entry per breed, at
least 3 entries, and attains its maximum at a unique index,
get_top_predictions with top_k 3 returns exactly 3 entries in
non-increasing confidence order, each being the formatted breeds entry
and probability at its index; the first entry carries the maximum of the
row as confidence and the reported prediction breed.  (The original
claim, without the unique-maximum restriction, fails on ties: see the
counterexample.) -/
theorem get_top_predictions_amended (breeds : List String) (row : List ℚ)
    (hlen : row.length = breeds.length) (h3 : 3 ≤ row.length)
    (huniq : ∀ j < row.length, row.getD j 0 = listMax row → j = argmax row) :
    (get_top_predictions breeds [row] 3).length = 3 ∧
    List.Sorted (fun a b : String × ℚ => b.2 ≤ a.2) (get_top_predictions breeds [row] 3) ∧
    (∀ e ∈ get_top_predictions breeds [row] 3,
      ∃ i < row.length, e = (formatBreed (breeds.getD i ""), row.getD i 0)) ∧
    ((get_top_predictions breeds [row] 3).headD ("", 0)).2 = listMax row ∧
    ((get_top_predictions breeds [row] 3).headD ("", 0)).1
      = formatBreed (get_pred_label breeds [row]) ∧
    ∀ (env : Env) (m : LoadedModel) (req : PredictReq) (image : PILImage)
      (payload : PredictPayload),
      env.decodeImage req.body = some image →
      env.predictFn m (preprocess_image image) = some [row] →
      tryPredict env m breeds req = some payload →
      payload.prediction.confidence = listMax row ∧
      (payload.top_3_predictions.headD ("", 0)).2 = payload.prediction.confidence ∧
      (payload.top_3_predictions.headD ("", 0)).1 = payload.prediction.breed := by
  have hdef : get_top_predictions breeds [row] 3
      = ((argsortAsc row).reverse.take 3).map
          (fun idx => (formatBreed (breeds.getD idx ""), row.getD idx 0)) := by
    rw [get_top_predictions]
    rw [lastK_reverse _ 3 (by norm_num)]
    rfl
  have hlenrev : (argsortAsc row).reverse.length = row.length := by
    rw [List.length_reverse, argsortAsc_length]
  rcases ht : (argsortAsc row).reverse with _ | ⟨h0, rest⟩
  · rw [ht] at hlenrev; simp at hlenrev; omega
  have hgreat : ∀ j ∈ argsortAsc row, keyLe row j h0 := reverse_head_greatest row h0 rest ht
  have hmem_h : h0 < row.length := by
    have : h0 ∈ (argsortAsc row).reverse := by rw [ht]; exact List.mem_cons_self _ _
    rw [List.mem_reverse, mem_argsortAsc] at this
    exact this
  have hge : ∀ j < row.length, row.getD j 0 ≤ row.getD h0 0 := by
    intro j hj
    exact keyLe_le row (hgreat j ((mem_argsortAsc row j).mpr hj))
  have hmax : row.getD h0 0 = listMax row := by
    have hne : row ≠ [] := by intro hrow; rw [hrow] at h3; simp at h3
    have hmem := listMax_mem row hne
    rw [List.mem_iff_getElem] at hmem
    obtain ⟨k, hk, hkeq⟩ := hmem
    have h1 : listMax row ≤ row.getD h0 0 := by
      rw [← hkeq, ← List.getD_eq_getElem row 0 hk]
      exact hge k hk
    have h2 : row.getD h0 0 ≤ listMax row := by
      rw [List.getD_eq_getElem row 0 hmem_h]
      exact le_listMax row _ (List.getElem_mem hmem_h)
    exact le_antisymm h2 h1
  have hargmax : h0 = argmax row := huniq h0 hmem_h hmax
  have hpair : List.Pairwise (fun a b => keyLe row b a) ((h0 :: rest).take 3) := by
    rw [← ht]
    exact (argsortAsc_reverse_pairwise row).sublist (List.take_sublist _ _)
  have hconf : ((get_top_predictions breeds [row] 3).headD ("", 0)).2 = listMax row := by
    rw [hdef, ht, List.take_succ_cons, List.map_cons, List.headD_cons, hmax]
  have hbreed : ((get_top_predictions breeds [row] 3).headD ("", 0)).1
      = formatBreed (get_pred_label breeds [row]) := by
    rw [hdef, ht, List.take_succ_cons, List.map_cons, List.headD_cons]
    dsimp only
    rw [hargmax]
    rw [get_pred_label]
    simp
  refine ⟨?_, ?_, ?_, hconf, hbreed, ?_⟩
  · rw [hdef, ht, List.length_map, List.length_take]
    rw [ht] at hlenrev
    simp only [List.length_cons] at hlenrev ⊢
    omega
  · rw [hdef, ht, List.Sorted, List.pairwise_map]
    exact hpair.imp fun hab => keyLe_le row hab
  · intro e he
    rw [hdef, List.mem_map] at he
    obtain ⟨i, hi, rfl⟩ := he
    have : i ∈ argsortAsc row := by
      rw [← List.mem_reverse]
      exact List.take_subset _ _ hi
    rw [mem_argsortAsc] at this
    exact ⟨i, this, rfl⟩
  · intro env m req image payload hdec hpred hpay
    unfold tryPredict at hpay
    rw [hdec] at hpay
    dsimp only at hpay
    rw [hpred] at hpay
    dsimp only at hpay
    split at hpay
    · injection hpay with hp
      subst hp
      exact ⟨rfl, hconf, hbreed⟩
    · cases hpay

theorem get_top_predictions_amended_witness :
    (get_top_predictions ["golden_retriever", "border_collie", "pug"]
      [[0, half, 0]] 3).length = 3 :=
  (get_top_predictions_amended ["golden_retriever", "border_collie", "pug"]
    [0, half, 0] rfl (by norm_num) (by decide)).1

/-- C5 counterexample: on the probability row [1/2, 1/2, 0] (a tie for
the maximum), the first entry of get_top_predictions names the breed at
the last tied index (stable ascending argsort, then reversal) while the
reported prediction breed comes from np.argmax, the first tied index, so
the two disagree. -/
theorem get_top_predictions_tie_counterexample :
    ((get_top_predictions ["golden_retriever", "border_collie", "pug"]
        [[half, half, 0]] 3).headD ("", 0)).1
      ≠ formatBreed (get_pred_label ["golden_retriever", "border_collie", "pug"]
          [[half, half, 0]]) := by decide
